import Mathlib

/-
Shallow embedding of src/file.go of izouxv/afero-dropbox: the afero `File`
adapter over the Dropbox API (streaming read with seek-by-reopen, pipe-backed
write with a background upload, cursor-paginated directory listing).

Modelling conventions:
 * Go machine integers (int, int64) are Lean `Int`; byte counts are `Nat`.
 * A Go nil-interface method call (nil pointer dereference panic) is the
   `Outcome.fault` constructor; ordinary returns are `Outcome.ok`.
 * The remote object's bytes are a `List Nat` parameter `content`; the
   download stream opened at offset `s` delivers `content.drop s`.
 * The underlying transport reader returns, for a buffer of size k, the next
   `min k remaining` bytes.  The flag `eager` says whether it reports io.EOF
   together with the final bytes (both behaviours are legal for io.Reader).
 * The background upload goroutine is only observed through the one-shot
   result channel that `Close` waits on, so the write lifecycle is modelled
   sequentially: `close` takes the upload's result as a parameter and applies
   the goroutine's state updates (lines 361-367 of file.go) at close time.
 * The paginated listing server is the canonical deterministic server
   `srvList`: cursors are opaque tokens whose length encodes the page index,
   page i of `pe : List (List Meta)` has `hasMore` exactly when a page i+1
   exists.  The empty cursor (the initial ListFolder call) is the length-0
   token, matching the code's `cursor == ""` test.
-/

namespace AferoDropbox

/-- Error values surfaced by the adapter: ErrNotSupported, ErrAlreadyOpened,
ErrInvalidSeek, afero.ErrFileClosed, io.ErrClosedPipe, and transport errors
from the Dropbox client (indexed by an opaque code). -/
inductive Err where
  | notSupported
  | alreadyOpened
  | invalidSeek
  | fileClosed
  | pipeClosed
  | transport (code : Nat)
  deriving DecidableEq, Repr

/-- Dropbox metadata: files.FileMetadata (name, size, client-modified stamp)
or files.FolderMetadata (name). -/
inductive Meta where
  | fileMeta (nm : String) (size : Nat) (clientModified : Nat)
  | folderMeta (nm : String)
  deriving DecidableEq, Repr

/-- FileInfo wraps a possibly-nil files.IsMetadata interface value, exactly as
the Go struct `FileInfo { meta files.IsMetadata }` does. -/
structure FInfo where
  meta : Option Meta
  deriving DecidableEq, Repr

/-- newFileInfo (file.go line 153): wrap metadata in a FileInfo. -/
def newFileInfo (m : Option Meta) : FInfo := ⟨m⟩

/-- FileInfo.Name (file.go lines 163-171). -/
def FInfo.name : FInfo → String
  | ⟨some (.fileMeta n _ _)⟩ => n
  | ⟨some (.folderMeta n)⟩ => n
  | ⟨none⟩ => ""

/-- FileInfo.Size (file.go lines 174-180): the size for file metadata, 0 for
folders and for a nil meta. -/
def FInfo.size : FInfo → Int
  | ⟨some (.fileMeta _ s _)⟩ => (s : Int)
  | _ => 0

/-- FileInfo.IsDir (file.go lines 197-201). -/
def FInfo.isDir : FInfo → Bool
  | ⟨some (.folderMeta _)⟩ => true
  | _ => false

/-- An open download stream: `pos` is the index into the remote content of
the next byte the stream will deliver. -/
structure ReadStream where
  pos : Nat
  deriving DecidableEq, Repr

/-- The File struct (file.go lines 17-29).  The pipe and the result channel
are not data; the channel's one-shot value appears as the `uploadResult`
parameter of `close`. -/
structure File where
  name : String
  streamWrite : Bool
  streamRead : Option ReadStream
  streamWriteErr : Option Err
  streamReadOffset : Int
  dirListCursor : String
  dirListDone : Bool
  dirList : List FInfo
  cachedInfo : Option FInfo
  deriving DecidableEq, Repr

/-- newFile (file.go lines 36-42). -/
def newFile (nm : String) : File :=
  { name := nm, streamWrite := false, streamRead := none, streamWriteErr := none,
    streamReadOffset := 0, dirListCursor := "", dirListDone := false,
    dirList := [], cachedInfo := none }

/-- A Go call outcome: `fault` is a runtime panic (nil interface dereference),
`ok` an ordinary return. -/
inductive Outcome (α : Type) where
  | fault
  | ok (val : α)
  deriving DecidableEq, Repr

/-- The files.DownloadArg request built by openReadStream: the path and the
optional Range extra header. -/
structure DownloadArg where
  path : String
  rangeHeader : Option String
  deriving DecidableEq, Repr

/-- Reference semantics of a Dropbox range download: `Download` with header
`bytes=s-` (or no header for s = 0) delivers the object's bytes from s on. -/
def rangeDownload (content : List Nat) (s : Nat) : List Nat := content.drop s

/-- openReadStream (file.go lines 373-394): record the start offset, build the
download request (Range header only when startAt > 0), and open the stream at
that offset.  The download is assumed to succeed; the request issued is
returned alongside the new state. -/
def File.openReadStream (f : File) (startAt : Int) : DownloadArg × File :=
  let req : DownloadArg :=
    { path := f.name
      rangeHeader :=
        if startAt > 0 then some ("bytes=" ++ toString startAt ++ "-") else none }
  (req, { f with streamReadOffset := startAt, streamRead := some ⟨startAt.toNat⟩ })

/-- One call to the underlying download stream's Read with a buffer of size k:
the bytes delivered, the advanced stream, and whether io.EOF was reported on
this call.  With `eager` the reader reports EOF together with the bytes that
exhaust the content; otherwise EOF comes on the next (empty) call. -/
def streamReadStep (content : List Nat) (eager : Bool) (st : ReadStream) (k : Nat) :
    List Nat × ReadStream × Bool :=
  let bs := (content.drop st.pos).take k
  let newPos := st.pos + bs.length
  let isEOF := (decide (0 < k) && decide (bs.length = 0)) ||
               (eager && decide (0 < k) && decide (content.length ≤ newPos))
  (bs, ⟨newPos⟩, isEOF)

/-- Result of File.Read: (n, nil), (n, io.EOF), or (0, wrapped error). -/
inductive ReadRes where
  | bytes (bs : List Nat)
  | eofBytes (bs : List Nat)
  | error (e : Err)
  deriving DecidableEq, Repr

/-- The bytes delivered to the caller by a Read result. -/
def ReadRes.data : ReadRes → List Nat
  | .bytes bs => bs
  | .eofBytes bs => bs
  | .error _ => []

/-- Read (file.go lines 82-96).  With no open read stream the Go code calls a
method on the nil interface `f.streamRead` and panics (`fault`).  On io.EOF
the count and io.EOF are returned and `f.streamReadOffset` is NOT advanced
(the `+= n` on line 93 only runs on the error-free path). -/
def File.read (content : List Nat) (eager : Bool) (f : File) (k : Nat) :
    Outcome (ReadRes × File) :=
  match f.streamRead with
  | none => .fault
  | some st =>
    let r := streamReadStep content eager st k
    if r.2.2 then .ok (.eofBytes r.1, { f with streamRead := some r.2.1 })
    else .ok (.bytes r.1, { f with streamRead := some r.2.1,
                                   streamReadOffset := f.streamReadOffset + r.1.length })

/-- The switch on whence in seekRead (file.go lines 397-406): the computed
start byte.  SeekEnd reads `f.cachedInfo.Size()`, which panics on a nil
cachedInfo; an unrecognized whence leaves the initial 0. -/
def File.seekTarget (f : File) (offset : Int) (whence : Int) : Outcome Int :=
  if whence = 0 then .ok offset
  else if whence = 1 then .ok (f.streamReadOffset + offset)
  else if whence = 2 then
    match f.cachedInfo with
    | none => .fault
    | some info => .ok (info.size - offset)
  else .ok 0

/-- seekRead (file.go lines 396-419): compute the target, close and drop the
current stream (the close is assumed to succeed), fail with ErrInvalidSeek on
a negative target, otherwise reopen the download at the target. -/
def File.seekRead (f : File) (offset : Int) (whence : Int) :
    Outcome ((Int × Option Err) × File) :=
  match f.seekTarget offset whence with
  | .fault => .fault
  | .ok startByte =>
    let f1 := { f with streamRead := none }
    if startByte < 0 then .ok ((startByte, some Err.invalidSeek), f1)
    else .ok ((startByte, none), (f1.openReadStream startByte).2)

/-- Seek (file.go lines 115-128): ErrNotSupported while a write stream is
open, seekRead while a read stream is open, afero.ErrFileClosed otherwise. -/
def File.seek (f : File) (offset : Int) (whence : Int) :
    Outcome ((Int × Option Err) × File) :=
  if f.streamWrite then .ok ((0, some Err.notSupported), f)
  else
    match f.streamRead with
    | some _ => f.seekRead offset whence
    | none => .ok ((0, some Err.fileClosed), f)

/-- ReadAt (file.go lines 102-108): Seek(off, io.SeekCurrent) then Read. -/
def File.readAt (content : List Nat) (eager : Bool) (f : File) (k : Nat) (off : Int) :
    Outcome (ReadRes × File) :=
  match f.seek off 1 with
  | .fault => .fault
  | .ok ((_, some e), f1) => .ok (.error e, f1)
  | .ok ((_, none), f1) => f1.read content eager k

/-- Write (file.go lines 133-135): forwards to the pipe's producer side; with
no write stream the nil interface call panics.  `pipeBroken` says whether the
background uploader has already failed and closed its end of the pipe, in
which case the pipe write fails with io.ErrClosedPipe. -/
def File.write (f : File) (pipeBroken : Bool) (k : Nat) :
    Outcome ((Nat × Option Err) × File) :=
  if f.streamWrite then
    if pipeBroken then .ok ((0, some Err.pipeClosed), f)
    else .ok ((k, none), f)
  else .fault

/-- WriteAt (file.go lines 140-146): Seek(off, io.SeekCurrent) then Write. -/
def File.writeAt (f : File) (pipeBroken : Bool) (k : Nat) (off : Int) :
    Outcome ((Nat × Option Err) × File) :=
  match f.seek off 1 with
  | .fault => .fault
  | .ok ((_, some e), f1) => .ok ((0, some e), f1)
  | .ok ((_, none), f1) => f1.write pipeBroken k

/-- openWriteStream (file.go lines 339-371): ErrAlreadyOpened if a write
stream is active; otherwise invalidate the cached metadata, create the pipe
and mark the write stream open (the spawned goroutine is observed at close
time through `close`'s uploadResult parameter). -/
def File.openWriteStream (f : File) : Option Err × File :=
  if f.streamWrite then (some Err.alreadyOpened, f)
  else (none, { f with cachedInfo := none, streamWrite := true })

/-- Close (file.go lines 46-77) together with the effects of the upload
goroutine (lines 351-368), which Close's channel receive synchronizes with.
A read stream is closed and dropped.  For a write stream: the pipe writer's
Close returns nil, the goroutine stores the error (if any) in streamWriteErr,
unconditionally overwrites cachedInfo with newFileInfo(meta) - meta being nil
when the upload failed - and Close returns the received upload error.  With
neither stream open, Close returns nil. -/
def File.close (uploadResult : Except Err Meta) (f : File) : Option Err × File :=
  if f.streamRead.isSome then (none, { f with streamRead := none })
  else if f.streamWrite then
    match uploadResult with
    | .error e =>
      (some e, { f with streamWrite := false, streamWriteErr := some e,
                        cachedInfo := some (newFileInfo none) })
    | .ok m =>
      (none, { f with streamWrite := false, cachedInfo := some (newFileInfo (some m)) })
  else (none, f)

/-- Stat (file.go lines 313-321): return the cached metadata when present,
otherwise perform one metadata fetch (its result is the `statResult`
parameter) and cache it. -/
def File.stat (statResult : Except Err FInfo) (f : File) :
    (Option FInfo × Option Err) × File :=
  match f.cachedInfo with
  | some info => ((some info, none), f)
  | none =>
    match statResult with
    | .ok info => ((some info, none), { f with cachedInfo := some info })
    | .error e => ((none, some e), f)

/-- Truncate (file.go lines 330-332): always ErrNotSupported. -/
def File.truncate (_ : File) (_ : Int) : Option Err := some Err.notSupported

/-- One page of a files.ListFolderResult: entries, continuation cursor, and
the has-more indicator. -/
structure Page where
  entries : List Meta
  cursor : String
  hasMore : Bool
  deriving DecidableEq, Repr

/-- The canonical server's cursor token for page index i: an opaque string of
length i (so the empty initial cursor denotes page 0). -/
def encodeCursor (i : Nat) : String := String.mk (List.replicate i 'x')

/-- Page i of the canonical server over the page table `pe`: its entries,
the cursor for page i+1, and hasMore exactly when page i+1 exists. -/
def srvPage (pe : List (List Meta)) (i : Nat) : Page :=
  { entries := pe.getD i []
    cursor := encodeCursor (i + 1)
    hasMore := decide (i + 1 < pe.length) }

/-- The canonical paginated listing server: ListFolder (empty cursor) and
ListFolderContinue (a server-issued cursor) both answer with the page the
cursor token denotes. -/
def srvList (pe : List (List Meta)) (c : String) : Page := srvPage pe c.length

/-- The loop of _readDirAll (file.go lines 211-230), with fuel: call the
listing (initial call for the empty local cursor, continuation otherwise),
append the wrapped entries, and continue with the server-issued cursor while
HasMore; `none` only on fuel exhaustion. -/
def readDirAllLoop (pe : List (List Meta)) :
    Nat → String → List FInfo → Option (List FInfo)
  | 0, _, _ => none
  | fuel + 1, cursor, acc =>
    let resp := srvList pe cursor
    let acc2 := acc ++ resp.entries.map (fun m => newFileInfo (some m))
    if resp.hasMore then readDirAllLoop pe fuel resp.cursor acc2
    else some acc2

/-- _readDirAll (file.go lines 208-232): drain every page starting from the
empty local cursor.  `pe.length + 1` steps always suffice against the
canonical server. -/
def readDirAll (pe : List (List Meta)) : Option (List FInfo) :=
  readDirAllLoop pe (pe.length + 1) "" []

/-- _readDir (file.go lines 235-267): on the first fetch (empty stored
cursor) create the buffer channel; fetch via ListFolder or
ListFolderContinue, store the new cursor, set the done flag from !HasMore,
and enqueue all returned entries (wrapped by newFileInfo) into the buffer. -/
def File.readDirFetch (pe : List (List Meta)) (f : File) : File :=
  let resp := srvList pe f.dirListCursor
  let base := if f.dirListCursor = "" then { f with dirList := ([] : List FInfo) } else f
  { base with dirListCursor := resp.cursor
              dirListDone := !resp.hasMore
              dirList := base.dirList ++ resp.entries.map (fun m => newFileInfo (some m)) }

/-- The Readdir loop for count > 0 (file.go lines 279-290), with fuel:
while the result is shorter than count and the done flag is unset, fetch one
page when the buffer is empty, then drain the buffer into the result until
count is reached or the buffer empties. -/
def readdirLoop (pe : List (List Meta)) :
    Nat → File → List FInfo → Int → Option (List FInfo × File)
  | 0, _, _, _ => none
  | fuel + 1, f, list, count =>
    if (list.length : Int) < count ∧ f.dirListDone = false then
      let f1 := if f.dirList.length = 0 then f.readDirFetch pe else f
      let t := min (count - (list.length : Int)).toNat f1.dirList.length
      readdirLoop pe fuel { f1 with dirList := f1.dirList.drop t }
        (list ++ f1.dirList.take t) count
    else some (list, f)

/-- Readdir (file.go lines 273-293): for count <= 0 delegate to _readDirAll
(the File state is untouched - _readDirAll uses a local cursor); for
count > 0 run the buffered loop.  The fuel bound covers every terminating
run against the canonical server. -/
def File.readdir (pe : List (List Meta)) (f : File) (count : Int) :
    Option (List FInfo × File) :=
  if count ≤ 0 then (readDirAll pe).map (fun l => (l, f))
  else readdirLoop pe (2 * pe.length + 8) f [] count

/-! ### Helper lemmas about the canonical listing server -/

lemma length_encodeCursor (i : Nat) : (encodeCursor i).length = i := by
  simp [encodeCursor, String.length]

lemma srvList_encode (pe : List (List Meta)) (i : Nat) :
    srvList pe (encodeCursor i) = srvPage pe i := by
  unfold srvList
  rw [length_encodeCursor]

lemma encodeCursor_zero : encodeCursor 0 = "" := rfl

lemma flatten_drop_succ (pe : List (List Meta)) (i : Nat) :
    (pe.drop i).flatten = pe.getD i [] ++ (pe.drop (i + 1)).flatten := by
  rcases Nat.lt_or_ge i pe.length with h | h
  · rw [List.drop_eq_getElem_cons h, List.flatten_cons, List.getD_eq_getElem pe [] h]
  · rw [List.drop_eq_nil_of_le h, List.drop_eq_nil_of_le (by omega),
      List.getD_eq_default pe [] h]
    simp

lemma readDirAllLoop_spec (pe : List (List Meta)) :
    ∀ (fuel i : Nat) (acc : List FInfo), pe.length ≤ i + fuel →
      readDirAllLoop pe (fuel + 1) (encodeCursor i) acc =
        some (acc ++ ((pe.drop i).flatten).map (fun m => newFileInfo (some m))) := by
  intro fuel
  induction fuel with
  | zero =>
    intro i acc h
    have hge : pe.length ≤ i := by omega
    have hnm : ¬ (i + 1 < pe.length) := by omega
    simp only [readDirAllLoop, srvList_encode, srvPage]
    rw [if_neg (by simpa using hnm)]
    rw [List.getD_eq_default pe [] hge, List.drop_eq_nil_of_le hge]
    simp
  | succ fuel ih =>
    intro i acc h
    rw [readDirAllLoop]
    simp only [srvList_encode, srvPage]
    by_cases hm : i + 1 < pe.length
    · rw [if_pos (by simpa using hm)]
      rw [ih (i + 1) _ (by omega)]
      rw [flatten_drop_succ pe i, List.map_append, List.append_assoc]
    · rw [if_neg (by simpa using hm)]
      have hge : pe.length ≤ i + 1 := by omega
      rw [flatten_drop_succ pe i, List.drop_eq_nil_of_le hge]
      simp

lemma readDirAll_eq (pe : List (List Meta)) :
    readDirAll pe = some ((pe.flatten).map (fun m => newFileInfo (some m))) := by
  unfold readDirAll
  rw [← encodeCursor_zero, readDirAllLoop_spec pe pe.length 0 [] (by omega)]
  simp

lemma readdirLoop_le (pe : List (List Meta)) :
    ∀ (fuel : Nat) (f : File) (list : List FInfo) (count : Int) (res : List FInfo) (f' : File),
      (list.length : Int) ≤ count →
      readdirLoop pe fuel f list count = some (res, f') →
      (res.length : Int) ≤ count ∧ ((res.length : Int) < count → f'.dirListDone = true) := by
  intro fuel
  induction fuel with
  | zero =>
    intro f list count res f' _ h
    simp [readdirLoop] at h
  | succ fuel ih =>
    intro f list count res f' hle h
    simp only [readdirLoop] at h
    by_cases hc : (list.length : Int) < count ∧ f.dirListDone = false
    · rw [if_pos hc] at h
      refine ih _ _ _ _ _ ?_ h
      set f1 := if f.dirList.length = 0 then f.readDirFetch pe else f with hf1
      set t := min (count - (list.length : Int)).toNat f1.dirList.length with ht
      have htake : (f1.dirList.take t).length ≤ t := List.length_take_le _ _
      have h1 : t ≤ (count - (list.length : Int)).toNat := min_le_left _ _
      have h3 : ((count - (list.length : Int)).toNat : Int) = count - list.length :=
        Int.toNat_of_nonneg (by omega)
      rw [List.length_append]
      push_cast
      omega
    · rw [if_neg hc] at h
      simp only [Option.some.injEq, Prod.mk.injEq] at h
      obtain ⟨rfl, rfl⟩ := h
      refine ⟨hle, ?_⟩
      intro hlt
      by_contra hdone
      exact hc ⟨hlt, by simpa using hdone⟩

lemma readdirLoop_buffered (pe : List (List Meta)) (fuel : Nat) (f : File) (count : Int)
    (hdone : f.dirListDone = false) (hc : 0 < count) (hb : count ≤ (f.dirList.length : Int)) :
    readdirLoop pe (fuel + 1 + 1) f [] count =
      some (f.dirList.take count.toNat, { f with dirList := f.dirList.drop count.toNat }) := by
  have hbn : ¬ f.dirList.length = 0 := by
    intro h0
    rw [h0] at hb
    simp at hb
    omega
  rw [readdirLoop]
  rw [if_pos ⟨by simpa using hc, hdone⟩]
  dsimp only
  rw [if_neg hbn]
  have ht : min (count - ((([] : List FInfo).length : Nat) : Int)).toNat f.dirList.length
      = count.toNat := by
    simp only [List.length_nil, Nat.cast_zero, sub_zero]
    exact Nat.min_eq_left (by omega)
  rw [ht, List.nil_append]
  rw [readdirLoop]
  rw [if_neg ?hcond]
  case hcond =>
    rintro ⟨h1, _⟩
    rw [List.length_take, Nat.min_eq_left (by omega)] at h1
    omega

/-- C5: for count = 0 or count negative, Readdir returns the complete entry
set: the concatenation, in order, of the wrapped entries of every page the
canonical paginated server serves, from the initial listing through each
continuation until a page reports no more pages. -/
theorem c5_readdir_nonpositive (pe : List (List Meta)) (f : File) (count : Int)
    (hc : count ≤ 0) :
    f.readdir pe count = some ((pe.flatten).map (fun m => newFileInfo (some m)), f) := by
  unfold File.readdir
  rw [if_pos hc, readDirAll_eq]
  rfl

def samplePages : List (List Meta) :=
  [[Meta.fileMeta "a" 1 0, Meta.folderMeta "d"], [], [Meta.fileMeta "b" 2 0]]

theorem c5_witness :
    (0 : Int) ≤ 0 ∧
      File.readdir samplePages (newFile "/dir") 0 =
        some ((samplePages.flatten).map (fun m => newFileInfo (some m)), newFile "/dir") :=
  ⟨le_refl 0, c5_readdir_nonpositive samplePages (newFile "/dir") 0 (le_refl 0)⟩

/-- C6: for count > 0, Readdir returns at most count entries; it returns
fewer than count only with the done flag set (pagination exhausted), and when
the done flag is unset it returns exactly count entries; moreover when the
buffered entries already cover count (buffer nonempty), no page is fetched:
the cursor and done flag are untouched and the result is drained from the
buffer alone. -/
theorem c6_readdir_positive (pe : List (List Meta)) (f : File) (count : Int)
    (res : List FInfo) (f' : File) (hc : 0 < count)
    (h : f.readdir pe count = some (res, f')) :
    ((res.length : Int) ≤ count ∧
     ((res.length : Int) < count → f'.dirListDone = true) ∧
     (f'.dirListDone = false → (res.length : Int) = count)) ∧
    (f.dirListDone = false → count ≤ (f.dirList.length : Int) →
      res = f.dirList.take count.toNat ∧
        f' = { f with dirList := f.dirList.drop count.toNat }) := by
  have hn : ¬ count ≤ 0 := by omega
  unfold File.readdir at h
  rw [if_neg hn] at h
  have main := readdirLoop_le pe _ f [] count res f'
    (by simp only [List.length_nil, Nat.cast_zero]; omega) h
  refine ⟨⟨main.1, main.2, ?_⟩, ?_⟩
  · intro hdone
    by_contra hne
    have hlt : (res.length : Int) < count := lt_of_le_of_ne main.1 hne
    have := main.2 hlt
    rw [this] at hdone
    cases hdone
  · intro hdone hb
    have e : 2 * pe.length + 8 = 2 * pe.length + 6 + 1 + 1 := by omega
    rw [e] at h
    rw [readdirLoop_buffered pe (2 * pe.length + 6) f count hdone hc hb] at h
    simp only [Option.some.injEq, Prod.mk.injEq] at h
    exact ⟨h.1.symm, h.2.symm⟩

def c6res : List FInfo :=
  [newFileInfo (some (Meta.fileMeta "a" 1 0)), newFileInfo (some (Meta.folderMeta "d"))]

def c6fin : File := { newFile "/dir" with dirListCursor := encodeCursor 1 }

theorem c6_witness :
    ((0 : Int) < 2 ∧ File.readdir samplePages (newFile "/dir") 2 = some (c6res, c6fin)) ∧
    (((c6res.length : Int) ≤ 2 ∧
      ((c6res.length : Int) < 2 → c6fin.dirListDone = true) ∧
      (c6fin.dirListDone = false → (c6res.length : Int) = 2)) ∧
     ((newFile "/dir").dirListDone = false →
      (2 : Int) ≤ ((newFile "/dir").dirList.length : Int) →
      c6res = (newFile "/dir").dirList.take (2 : Int).toNat ∧
        c6fin = { newFile "/dir" with dirList := (newFile "/dir").dirList.drop (2 : Int).toNat })) :=
  ⟨⟨by norm_num, by decide⟩,
    c6_readdir_positive samplePages (newFile "/dir") 2 c6res c6fin (by norm_num) (by decide)⟩

/-! ### Helper lemmas for the read path -/

lemma seek_open (f : File) (st : ReadStream) (offset whence : Int)
    (hw : f.streamWrite = false) (hr : f.streamRead = some st) :
    f.seek offset whence = f.seekRead offset whence := by
  unfold File.seek
  rw [hw, hr]
  simp

lemma seekTarget_start (f : File) (s : Int) : f.seekTarget s 0 = .ok s := by
  unfold File.seekTarget
  norm_num

lemma seekTarget_current (f : File) (off : Int) :
    f.seekTarget off 1 = .ok (f.streamReadOffset + off) := by
  unfold File.seekTarget
  norm_num

lemma seekTarget_end (f : File) (info : FInfo) (off : Int) (hi : f.cachedInfo = some info) :
    f.seekTarget off 2 = .ok (info.size - off) := by
  unfold File.seekTarget
  rw [hi]
  norm_num

lemma seekRead_nonneg (f : File) (offset whence sb : Int)
    (ht : f.seekTarget offset whence = .ok sb) (hnn : 0 ≤ sb) :
    f.seekRead offset whence =
      .ok ((sb, none), (({ f with streamRead := none } : File).openReadStream sb).2) := by
  unfold File.seekRead
  rw [ht]
  dsimp only
  rw [if_neg (not_lt.mpr hnn)]

lemma read_eq (content : List Nat) (eager : Bool) (f : File) (st : ReadStream) (k : Nat)
    (hr : f.streamRead = some st) :
    f.read content eager k =
      (if (streamReadStep content eager st k).2.2 then
        .ok (.eofBytes (streamReadStep content eager st k).1,
          { f with streamRead := some (streamReadStep content eager st k).2.1 })
      else
        .ok (.bytes (streamReadStep content eager st k).1,
          { f with streamRead := some (streamReadStep content eager st k).2.1,
                   streamReadOffset :=
                     f.streamReadOffset + (streamReadStep content eager st k).1.length })) := by
  unfold File.read
  rw [hr]

lemma read_spec (content : List Nat) (eager : Bool) (f : File) (st : ReadStream) (k : Nat)
    (hr : f.streamRead = some st) :
    ∃ r f1, f.read content eager k = .ok (r, f1) ∧
      r.data = (content.drop st.pos).take k ∧
      f1.streamRead = some ⟨st.pos + r.data.length⟩ ∧
      f1.streamWrite = f.streamWrite ∧
      f1.name = f.name ∧
      f1.cachedInfo = f.cachedInfo ∧
      (f1.streamReadOffset = f.streamReadOffset ∨
        f1.streamReadOffset = f.streamReadOffset + r.data.length) := by
  have he := read_eq content eager f st k hr
  by_cases hE : (streamReadStep content eager st k).2.2 = true
  · rw [if_pos hE] at he
    exact ⟨_, _, he, rfl, rfl, rfl, rfl, rfl, Or.inl rfl⟩
  · rw [if_neg hE] at he
    exact ⟨_, _, he, rfl, rfl, rfl, rfl, rfl, Or.inr rfl⟩

/-- C2 (amended): a Seek whose computed target is negative returns
ErrInvalidSeek and leaves no read stream open; a subsequent Read dereferences
the absent (nil) stream and panics - it does not silently resume the old
stream, but neither does it return an error - while a subsequent Seek is what
reports the ClosedHandle condition (afero.ErrFileClosed). -/
theorem c2_negative_seek (content : List Nat) (eager : Bool) (f : File) (st : ReadStream)
    (offset whence sb : Int) (k : Nat) (o2 w2 : Int)
    (hw : f.streamWrite = false) (hr : f.streamRead = some st)
    (ht : f.seekTarget offset whence = .ok sb) (hneg : sb < 0) :
    f.seek offset whence = .ok ((sb, some Err.invalidSeek), { f with streamRead := none }) ∧
    ({ f with streamRead := none } : File).streamRead = none ∧
    File.read content eager { f with streamRead := none } k = Outcome.fault ∧
    ({ f with streamRead := none } : File).seek o2 w2 =
      .ok ((0, some Err.fileClosed), { f with streamRead := none }) := by
  refine ⟨?_, rfl, rfl, ?_⟩
  · rw [seek_open f st offset whence hw hr]
    unfold File.seekRead
    rw [ht]
    dsimp only
    rw [if_pos hneg]
  · unfold File.seek
    simp [hw]

def c2file : File :=
  { name := "/f", streamWrite := false, streamRead := some ⟨0⟩, streamWriteErr := none,
    streamReadOffset := 0, dirListCursor := "", dirListDone := false, dirList := [],
    cachedInfo := none }

/-- C2 counterexample: after the failed negative seek, the subsequent Read on
the handle is a nil-stream dereference (a Go panic), which is not a return of
the ClosedHandle error as the claim states. -/
theorem c2_counterexample :
    c2file.seek (-5) 0 = .ok ((-5, some Err.invalidSeek), { c2file with streamRead := none }) ∧
    File.read [] false { c2file with streamRead := none } 1 = Outcome.fault ∧
    Outcome.fault ≠
      Outcome.ok (ReadRes.error Err.fileClosed, ({ c2file with streamRead := none } : File)) := by
  refine ⟨by decide, rfl, by decide⟩

def sampleContent : List Nat := [10, 11, 12, 13, 14, 15, 16, 17, 18, 19]

def sampleReadFile : File :=
  { name := "/f", streamWrite := false, streamRead := some ⟨2⟩, streamWriteErr := none,
    streamReadOffset := 2, dirListCursor := "", dirListDone := false, dirList := [],
    cachedInfo := some (newFileInfo (some (Meta.fileMeta "f" 10 0))) }

theorem c2_witness :
    (c2file.streamWrite = false ∧ c2file.streamRead = some ⟨0⟩ ∧
      c2file.seekTarget (-5) 0 = .ok (-5) ∧ (-5 : Int) < 0) ∧
    (c2file.seek (-5) 0 = .ok ((-5, some Err.invalidSeek), { c2file with streamRead := none }) ∧
     ({ c2file with streamRead := none } : File).streamRead = none ∧
     File.read [] false { c2file with streamRead := none } 1 = Outcome.fault ∧
     ({ c2file with streamRead := none } : File).seek 0 0 =
       .ok ((0, some Err.fileClosed), { c2file with streamRead := none })) :=
  ⟨⟨rfl, rfl, by decide, by norm_num⟩,
    c2_negative_seek [] false c2file ⟨0⟩ (-5) 0 (-5) 1 0 0 rfl rfl (by decide) (by norm_num)⟩

/-- C3: on a handle with an open read stream and s nonnegative, Seek(s, start)
succeeds, closes the old stream and reopens a download at position s, and the
following Read delivers exactly a prefix of the reference range download of
the object starting at byte s; the download request carries no Range header
for s = 0 and the header `bytes=s-` for s > 0. -/
theorem c3_seek_then_read (content : List Nat) (eager : Bool) (f : File) (st : ReadStream)
    (s : Int) (k : Nat) (hw : f.streamWrite = false) (hr : f.streamRead = some st)
    (hs : 0 ≤ s) :
    f.seek s 0 = .ok ((s, none), (({ f with streamRead := none } : File).openReadStream s).2) ∧
    ((({ f with streamRead := none } : File).openReadStream s).2).streamRead =
      some ⟨s.toNat⟩ ∧
    (∃ r f2, ((({ f with streamRead := none } : File).openReadStream s).2).read content eager k
        = .ok (r, f2) ∧ r.data = (rangeDownload content s.toNat).take k) ∧
    (s = 0 → ((({ f with streamRead := none } : File).openReadStream s).1).rangeHeader = none) ∧
    (0 < s → ((({ f with streamRead := none } : File).openReadStream s).1).rangeHeader =
      some ("bytes=" ++ toString s ++ "-")) := by
  refine ⟨?_, rfl, ?_, ?_, ?_⟩
  · rw [seek_open f st s 0 hw hr, seekRead_nonneg f s 0 s (seekTarget_start f s) hs]
  · obtain ⟨r, f2, h1, h2, -⟩ := read_spec content eager
      (({ f with streamRead := none } : File).openReadStream s).2 ⟨s.toNat⟩ k rfl
    exact ⟨r, f2, h1, by simpa [rangeDownload] using h2⟩
  · intro h0
    subst h0
    rfl
  · intro hpos
    simp [File.openReadStream, hpos]

theorem c3_witness :
    (sampleReadFile.streamWrite = false ∧ sampleReadFile.streamRead = some ⟨2⟩ ∧
      (0 : Int) ≤ 4) ∧
    (sampleReadFile.seek 4 0 =
        .ok ((4, none), (({ sampleReadFile with streamRead := none } : File).openReadStream 4).2) ∧
     ((({ sampleReadFile with streamRead := none } : File).openReadStream 4).2).streamRead =
        some ⟨(4 : Int).toNat⟩ ∧
     (∃ r f2,
        ((({ sampleReadFile with streamRead := none } : File).openReadStream 4).2).read
            sampleContent false 3 = .ok (r, f2) ∧
          r.data = (rangeDownload sampleContent (4 : Int).toNat).take 3) ∧
     ((4 : Int) = 0 →
        ((({ sampleReadFile with streamRead := none } : File).openReadStream 4).1).rangeHeader =
          none) ∧
     ((0 : Int) < 4 →
        ((({ sampleReadFile with streamRead := none } : File).openReadStream 4).1).rangeHeader =
          some ("bytes=" ++ toString (4 : Int) ++ "-"))) :=
  ⟨⟨rfl, rfl, by norm_num⟩,
    c3_seek_then_read sampleContent false sampleReadFile ⟨2⟩ 4 3 rfl rfl (by norm_num)⟩

/-- C4: an end-relative seek on a handle with an open read stream and cached
metadata of size S computes the target as the literal subtraction S - offset,
and when that target is nonnegative the stream is reopened at it. -/
theorem c4_seek_end_subtract (f : File) (st : ReadStream) (info : FInfo) (offset : Int)
    (hw : f.streamWrite = false) (hr : f.streamRead = some st)
    (hi : f.cachedInfo = some info) :
    f.seekTarget offset 2 = .ok (info.size - offset) ∧
    (0 ≤ info.size - offset →
      f.seek offset 2 = .ok ((info.size - offset, none),
        (({ f with streamRead := none } : File).openReadStream (info.size - offset)).2) ∧
      ((({ f with streamRead := none } : File).openReadStream (info.size - offset)).2).streamRead
        = some ⟨(info.size - offset).toNat⟩ ∧
      ((({ f with streamRead := none } : File).openReadStream
          (info.size - offset)).2).streamReadOffset = info.size - offset) := by
  refine ⟨seekTarget_end f info offset hi, ?_⟩
  intro hnn
  refine ⟨?_, rfl, rfl⟩
  rw [seek_open f st offset 2 hw hr,
    seekRead_nonneg f offset 2 _ (seekTarget_end f info offset hi) hnn]

theorem c4_witness :
    (sampleReadFile.streamWrite = false ∧ sampleReadFile.streamRead = some ⟨2⟩ ∧
      sampleReadFile.cachedInfo = some (newFileInfo (some (Meta.fileMeta "f" 10 0)))) ∧
    (sampleReadFile.seekTarget 4 2 =
        .ok ((newFileInfo (some (Meta.fileMeta "f" 10 0))).size - 4) ∧
     ((0 : Int) ≤ (newFileInfo (some (Meta.fileMeta "f" 10 0))).size - 4 →
      sampleReadFile.seek 4 2 =
        .ok (((newFileInfo (some (Meta.fileMeta "f" 10 0))).size - 4, none),
          (({ sampleReadFile with streamRead := none } : File).openReadStream
            ((newFileInfo (some (Meta.fileMeta "f" 10 0))).size - 4)).2) ∧
      ((({ sampleReadFile with streamRead := none } : File).openReadStream
          ((newFileInfo (some (Meta.fileMeta "f" 10 0))).size - 4)).2).streamRead =
        some ⟨((newFileInfo (some (Meta.fileMeta "f" 10 0))).size - 4).toNat⟩ ∧
      ((({ sampleReadFile with streamRead := none } : File).openReadStream
          ((newFileInfo (some (Meta.fileMeta "f" 10 0))).size - 4)).2).streamReadOffset =
        (newFileInfo (some (Meta.fileMeta "f" 10 0))).size - 4)) :=
  ⟨⟨rfl, rfl, rfl⟩, c4_seek_end_subtract sampleReadFile ⟨2⟩
    (newFileInfo (some (Meta.fileMeta "f" 10 0))) 4 rfl rfl rfl⟩

lemma readAt_spec (content : List Nat) (eager : Bool) (f : File) (st : ReadStream)
    (off : Int) (k : Nat) (hw : f.streamWrite = false) (hr : f.streamRead = some st)
    (hpos : 0 ≤ f.streamReadOffset + off) :
    ∃ r f1, f.readAt content eager k off = .ok (r, f1) ∧
      r.data = (rangeDownload content (f.streamReadOffset + off).toNat).take k ∧
      f1.streamWrite = f.streamWrite ∧
      (∃ st1, f1.streamRead = some st1) ∧
      (f1.streamReadOffset = f.streamReadOffset + off ∨
        f1.streamReadOffset = f.streamReadOffset + off + r.data.length) := by
  unfold File.readAt
  rw [seek_open f st off 1 hw hr,
    seekRead_nonneg f off 1 _ (seekTarget_current f off) hpos]
  dsimp only
  obtain ⟨r, f1, h1, h2, h3, h4, h5, h6, h7⟩ := read_spec content eager
    (({ f with streamRead := none } : File).openReadStream (f.streamReadOffset + off)).2
    ⟨(f.streamReadOffset + off).toNat⟩ k rfl
  exact ⟨r, f1, h1, by simpa [rangeDownload] using h2, h4, ⟨_, h3⟩, h7⟩

/-- C9 (amended): ReadAt(p, off) seeks current-relative, so on a handle whose
read offset is c it reads starting at byte c + off (the reference range
download from c + off), not at absolute byte off; in particular, two
successive ReadAt calls with the same positive off read from strictly
different (increasing) positions. -/
theorem c9_readAt_current_relative (content : List Nat) (eager : Bool) (f : File)
    (st : ReadStream) (c off : Int) (k : Nat)
    (hw : f.streamWrite = false) (hr : f.streamRead = some st)
    (hc : f.streamReadOffset = c) (hpos : 0 ≤ c + off) :
    ∃ r f1, f.readAt content eager k off = .ok (r, f1) ∧
      r.data = (rangeDownload content (c + off).toNat).take k ∧
      f1.streamWrite = false ∧
      c + off ≤ f1.streamReadOffset ∧
      (0 < off → ∃ r2 f2, f1.readAt content eager k off = .ok (r2, f2) ∧
        r2.data = (rangeDownload content (f1.streamReadOffset + off).toNat).take k ∧
        c + off < f1.streamReadOffset + off) := by
  obtain ⟨r, f1, h1, h2, h3, ⟨st1, h4⟩, h5⟩ :=
    readAt_spec content eager f st off k hw hr (by rw [hc]; exact hpos)
  rw [hc] at h2 h5
  have hw1 : f1.streamWrite = false := h3.trans hw
  have hle : c + off ≤ f1.streamReadOffset := by
    rcases h5 with h | h <;> omega
  refine ⟨r, f1, h1, h2, hw1, hle, ?_⟩
  intro hoff
  obtain ⟨r2, f2, g1, g2, -, -, -⟩ :=
    readAt_spec content eager f1 st1 off k hw1 h4 (by omega)
  exact ⟨r2, f2, g1, g2, by omega⟩

def c9file : File :=
  { name := "/f", streamWrite := false, streamRead := some ⟨3⟩, streamWriteErr := none,
    streamReadOffset := 3, dirListCursor := "", dirListDone := false, dirList := [],
    cachedInfo := none }

/-- C9 counterexample: on a handle at read offset 3, ReadAt with off = -3 and
a 3-byte buffer seeks to position 0, reads bytes 0..2 and returns the handle
to the exact starting state, so the immediately following ReadAt with the
same off is the identical call: both calls read from position 0, refuting
"two successive ReadAt calls with the same off read from different
positions". -/
theorem c9_counterexample :
    File.readAt sampleContent false c9file 3 (-3) =
      .ok (ReadRes.bytes [10, 11, 12], c9file) ∧
    (rangeDownload sampleContent 0).take 3 = [10, 11, 12] := by
  refine ⟨by decide, by decide⟩

theorem c9_witness :
    (c9file.streamWrite = false ∧ c9file.streamRead = some ⟨3⟩ ∧
      c9file.streamReadOffset = 3 ∧ (0 : Int) ≤ 3 + 2) ∧
    (∃ r f1, c9file.readAt sampleContent false 4 2 = .ok (r, f1) ∧
      r.data = (rangeDownload sampleContent ((3 : Int) + 2).toNat).take 4 ∧
      f1.streamWrite = false ∧
      (3 : Int) + 2 ≤ f1.streamReadOffset ∧
      ((0 : Int) < 2 → ∃ r2 f2, f1.readAt sampleContent false 4 2 = .ok (r2, f2) ∧
        r2.data = (rangeDownload sampleContent (f1.streamReadOffset + 2).toNat).take 4 ∧
        (3 : Int) + 2 < f1.streamReadOffset + 2)) :=
  ⟨⟨rfl, rfl, rfl, by norm_num⟩,
    c9_readAt_current_relative sampleContent false c9file ⟨3⟩ 3 2 4 rfl rfl rfl (by norm_num)⟩

/-- C10: when the underlying stream delivers a positive number of bytes
together with io.EOF, Read returns those bytes with io.EOF but does not
advance the handle's stored read offset, so a later current-relative seek
computes its target from the pre-read position, which undercounts the bytes
actually delivered. -/
theorem c10_eof_read_keeps_offset (content : List Nat) (f : File) (st : ReadStream) (k : Nat)
    (hr : f.streamRead = some st) (hoff : f.streamReadOffset = (st.pos : Int))
    (hlt : st.pos < content.length) (hk : content.length ≤ st.pos + k) :
    ∃ bs f1, f.read content true k = .ok (.eofBytes bs, f1) ∧
      0 < bs.length ∧
      bs = content.drop st.pos ∧
      f1.streamReadOffset = f.streamReadOffset ∧
      f1.seekTarget 0 1 = .ok (st.pos : Int) ∧
      (st.pos : Int) < (st.pos : Int) + bs.length := by
  have he := read_eq content true f st k hr
  have hbs : (content.drop st.pos).take k = content.drop st.pos := by
    apply List.take_of_length_le
    rw [List.length_drop]
    omega
  have hlen : (streamReadStep content true st k).1.length = content.length - st.pos := by
    dsimp only [streamReadStep]
    rw [hbs, List.length_drop]
  have hEOF : (streamReadStep content true st k).2.2 = true := by
    dsimp only [streamReadStep]
    rw [Bool.or_eq_true]
    right
    rw [Bool.and_eq_true, Bool.and_eq_true]
    refine ⟨⟨rfl, ?_⟩, ?_⟩
    · rw [decide_eq_true_eq]
      omega
    · rw [decide_eq_true_eq]
      have := hlen
      dsimp only [streamReadStep] at this
      rw [this]
      omega
  rw [if_pos hEOF] at he
  refine ⟨_, _, he, ?_, ?_, rfl, ?_, ?_⟩
  · rw [hlen]
    omega
  · exact hbs
  · rw [seekTarget_current]
    dsimp only
    rw [hoff, add_zero]
  · rw [hlen]
    omega

def c10file : File :=
  { name := "/f", streamWrite := false, streamRead := some ⟨6⟩, streamWriteErr := none,
    streamReadOffset := 6, dirListCursor := "", dirListDone := false, dirList := [],
    cachedInfo := none }

theorem c10_witness :
    (c10file.streamRead = some ⟨6⟩ ∧ c10file.streamReadOffset = ((6 : Nat) : Int) ∧
      (6 : Nat) < sampleContent.length ∧ sampleContent.length ≤ 6 + 8) ∧
    (∃ bs f1, c10file.read sampleContent true 8 = .ok (.eofBytes bs, f1) ∧
      0 < bs.length ∧
      bs = sampleContent.drop 6 ∧
      f1.streamReadOffset = c10file.streamReadOffset ∧
      f1.seekTarget 0 1 = .ok ((6 : Nat) : Int) ∧
      ((6 : Nat) : Int) < ((6 : Nat) : Int) + bs.length) :=
  ⟨⟨rfl, by decide, by decide, by decide⟩,
    c10_eof_read_keeps_offset sampleContent c10file ⟨6⟩ 8 rfl (by decide) (by decide)
      (by decide)⟩

/-- C7: opening a write stream while one is active fails with ErrAlreadyOpened
and changes no handle state; opening it with no write stream active succeeds
and the only state changes are the invalidated cached metadata and the
now-active write stream. -/
theorem c7_openWriteStream (f : File) :
    (f.streamWrite = true → f.openWriteStream = (some Err.alreadyOpened, f)) ∧
    (f.streamWrite = false →
      f.openWriteStream = (none, { f with cachedInfo := none, streamWrite := true })) := by
  constructor
  · intro h
    unfold File.openWriteStream
    rw [if_pos h]
  · intro h
    unfold File.openWriteStream
    rw [if_neg (by simp [h])]

def c7openFile : File := { newFile "/w" with streamWrite := true }

theorem c7_witness :
    (c7openFile.streamWrite = true ∧
      c7openFile.openWriteStream = (some Err.alreadyOpened, c7openFile)) ∧
    ((newFile "/w").streamWrite = false ∧
      (newFile "/w").openWriteStream =
        (none, { newFile "/w" with cachedInfo := none, streamWrite := true })) :=
  ⟨⟨rfl, (c7_openWriteStream c7openFile).1 rfl⟩,
   ⟨rfl, (c7_openWriteStream (newFile "/w")).2 rfl⟩⟩

/-- C8: Truncate returns ErrNotSupported for every argument, and while a
write stream is open both Seek and WriteAt return ErrNotSupported for all
arguments, leaving the handle unchanged. -/
theorem c8_not_supported (f : File) (size offset whence : Int) (pb : Bool) (k : Nat)
    (off : Int) :
    f.truncate size = some Err.notSupported ∧
    (f.streamWrite = true →
      f.seek offset whence = .ok ((0, some Err.notSupported), f) ∧
      f.writeAt pb k off = .ok ((0, some Err.notSupported), f)) := by
  refine ⟨rfl, ?_⟩
  intro h
  have hs1 : f.seek off 1 = .ok ((0, some Err.notSupported), f) := by
    unfold File.seek
    rw [if_pos h]
  refine ⟨?_, ?_⟩
  · unfold File.seek
    rw [if_pos h]
  · unfold File.writeAt
    rw [hs1]

theorem c8_witness :
    c7openFile.streamWrite = true ∧
    c7openFile.truncate 5 = some Err.notSupported ∧
    c7openFile.seek 1 0 = .ok ((0, some Err.notSupported), c7openFile) ∧
    c7openFile.writeAt true 3 1 = .ok ((0, some Err.notSupported), c7openFile) :=
  ⟨rfl, (c8_not_supported c7openFile 5 1 0 true 3 1).1,
    ((c8_not_supported c7openFile 5 1 0 true 3 1).2 rfl).1,
    ((c8_not_supported c7openFile 5 1 0 true 3 1).2 rfl).2⟩

def c1wfile : File := ((newFile "/a").openWriteStream).2

/-- C1 (code bug evaluated at the failing input): after a write-open whose
background upload fails with transport error e, Close does return e (and a
prior pipe-level Write failure is io.ErrClosedPipe, not e), but - contrary to
the claim and the spec - the cached metadata IS updated: the goroutine's
unconditional `f.cachedInfo = newFileInfo(meta)` stores a FileInfo wrapping
the nil metadata of the failed upload, so a subsequent Stat returns that
bogus value instead of leaving the cache empty. -/
theorem c1_failed_upload_updates_cache :
    c1wfile.cachedInfo = none ∧
    File.close (Except.error (Err.transport 7)) c1wfile =
      (some (Err.transport 7),
        { c1wfile with streamWrite := false, streamWriteErr := some (Err.transport 7),
                       cachedInfo := some (newFileInfo none) }) ∧
    (File.close (Except.error (Err.transport 7)) c1wfile).2.cachedInfo =
      some (newFileInfo none) ∧
    some (newFileInfo none) ≠ (none : Option FInfo) ∧
    File.stat (Except.ok (newFileInfo (some (Meta.fileMeta "a" 5 0))))
        (File.close (Except.error (Err.transport 7)) c1wfile).2 =
      ((some (newFileInfo none), none),
        (File.close (Except.error (Err.transport 7)) c1wfile).2) ∧
    newFileInfo none ≠ newFileInfo (some (Meta.fileMeta "a" 5 0)) ∧
    c1wfile.write true 4 = .ok ((0, some Err.pipeClosed), c1wfile) ∧
    Err.pipeClosed ≠ Err.transport 7 :=
  ⟨rfl, by decide, by decide, by decide, by decide, by decide, by decide, by decide⟩

end AferoDropbox
